import Mathlib

/-!
Shallow embedding of pymodbus3 mei_message.py (Read Device Identification,
function code 0x2b, MEI sub-function 0x0e): the request codec, the response
codec and the RTU frame-size estimator, together with proofs about them.

Byte buffers are modelled as List Nat (each element a byte value), Python
integers as Int, Python dictionaries as association lists that preserve
insertion order, and raising struct.error as returning none.
-/

namespace Pymodbus3

/-- Modelled from the spec: constants.py is not under src/. The read-code
enumeration, whose Basic member is used as the falsy-coercion default in
both constructors; the spec gives Basic = 0. -/
def DeviceInformation.Basic : Int := 0

/-- Modelled from the spec: constants.py is not under src/. The more-follows
flag, whose Nothing member is 0. -/
def MoreData.Nothing : Int := 0

/-- Modelled from the spec: pdu.py is not under src/. The Modbus exception
kinds; only IllegalValue is used by this module. -/
inductive ModbusExceptions where
  | IllegalValue
deriving DecidableEq

/-- struct.pack with format >B: one unsigned byte. Raises struct.error
(modelled as none) when the value is outside 0..255. -/
def packByte (v : Int) : Option Nat :=
  if 0 ≤ v ∧ v ≤ 255 then some v.toNat else none

/-- ReadDeviceInformationRequest: the three mutable scalar fields that
encode reads and decode writes. -/
structure ReadDeviceInformationRequest where
  sub_function_code : Int
  read_code : Int
  object_id : Int
deriving DecidableEq

/-- ReadDeviceInformationRequest constructor: read_code defaults to None and
is coerced through the Python expression read_code or DeviceInformation.Basic
(None and 0 are falsy), object_id defaults to 0. -/
def ReadDeviceInformationRequest.init (read_code : Option Int := none)
    (object_id : Int := 0x00) : ReadDeviceInformationRequest :=
  { sub_function_code := 0x0e
    read_code :=
      match read_code with
      | none => DeviceInformation.Basic
      | some v => if v = 0 then DeviceInformation.Basic else v
    object_id := object_id }

/-- ReadDeviceInformationRequest.encode: struct.pack of the three fields
with format >BBB. -/
def ReadDeviceInformationRequest.encode (r : ReadDeviceInformationRequest) :
    Option (List Nat) := do
  let b0 ← packByte r.sub_function_code
  let b1 ← packByte r.read_code
  let b2 ← packByte r.object_id
  return [b0, b1, b2]

/-- ReadDeviceInformationRequest.decode: struct.unpack with format >BBB,
which demands a buffer of exactly three bytes and assigns the fields
positionally. -/
def ReadDeviceInformationRequest.decode (data : List Nat) :
    Option ReadDeviceInformationRequest :=
  match data with
  | [a, b, c] =>
    some { sub_function_code := (a : Int), read_code := (b : Int),
           object_id := (c : Int) }
  | _ => none

/-- ReadDeviceInformationResponse: the mutable fields that encode reads and
decode writes; information is an insertion-ordered mapping from object id
to payload bytes. -/
structure ReadDeviceInformationResponse where
  sub_function_code : Int
  read_code : Int
  conformity : Int
  more_follows : Int
  next_object_id : Int
  number_of_objects : Int
  information : List (Int × List Nat)
deriving DecidableEq

/-- ReadDeviceInformationResponse constructor: read_code goes through the
falsy coercion read_code or DeviceInformation.Basic, information through
information or the empty mapping; number_of_objects is set to the size of
the stored mapping, conformity to 0x83, next_object_id to 0x00 and
more_follows to MoreData.Nothing. -/
def ReadDeviceInformationResponse.init (read_code : Option Int := none)
    (information : Option (List (Int × List Nat)) := none) :
    ReadDeviceInformationResponse :=
  let info : List (Int × List Nat) :=
    match information with
    | none => []
    | some m => m
  { sub_function_code := 0x0e
    read_code :=
      match read_code with
      | none => DeviceInformation.Basic
      | some v => if v = 0 then DeviceInformation.Basic else v
    conformity := 0x83
    more_follows := MoreData.Nothing
    next_object_id := 0x00
    number_of_objects := (info.length : Int)
    information := info }

/-- The result of ReadDeviceInformationRequest.execute: either a structured
exception indicator (self.do_exception) or a populated response. -/
inductive ExecuteResult where
  | exceptionResponse (e : ModbusExceptions)
  | response (r : ReadDeviceInformationResponse)
deriving DecidableEq

/-- ReadDeviceInformationRequest.execute: range-checks object_id then
read_code, returning an IllegalValue indicator on the first failure;
otherwise wraps the mapping obtained from the device-information provider
(DeviceInformationFactory.get, passed here as an explicit function) in a
freshly constructed response. -/
def ReadDeviceInformationRequest.execute (r : ReadDeviceInformationRequest)
    (provider : Int → Int → List (Int × List Nat)) : ExecuteResult :=
  if ¬ (0x00 ≤ r.object_id ∧ r.object_id ≤ 0xff) then
    .exceptionResponse .IllegalValue
  else if ¬ (0x00 ≤ r.read_code ∧ r.read_code ≤ 0x04) then
    .exceptionResponse .IllegalValue
  else
    .response (ReadDeviceInformationResponse.init (some r.read_code)
      (some (provider r.read_code r.object_id)))

/-- One pass of the encode loop body: struct.pack of the object id and the
payload length with format >BB, followed by the raw payload bytes, for each
entry of information in iteration order. -/
def encodeObjects : List (Int × List Nat) → Option (List Nat)
  | [] => some []
  | o :: rest => do
    let b0 ← packByte o.1
    let b1 ← packByte ((o.2.length : Nat) : Int)
    let tail ← encodeObjects rest
    return b0 :: b1 :: (o.2 ++ tail)

/-- ReadDeviceInformationResponse.encode: the six header bytes packed with
format >BBBBBB (the number_of_objects byte is the stored field), followed by
the serialized information entries. -/
def ReadDeviceInformationResponse.encode (r : ReadDeviceInformationResponse) :
    Option (List Nat) := do
  let b0 ← packByte r.sub_function_code
  let b1 ← packByte r.read_code
  let b2 ← packByte r.conformity
  let b3 ← packByte r.more_follows
  let b4 ← packByte r.next_object_id
  let b5 ← packByte r.number_of_objects
  let body ← encodeObjects r.information
  return [b0, b1, b2, b3, b4, b5] ++ body

/-- Python dictionary assignment d[k] = v on an insertion-ordered mapping:
an existing key keeps its position and gets the new value, a new key is
appended at the end. -/
def dictSet (m : List (Int × List Nat)) (k : Int) (v : List Nat) :
    List (Int × List Nat) :=
  if m.any (fun p => p.1 == k) then
    m.map (fun p => if p.1 == k then (k, v) else p)
  else
    m ++ [(k, v)]

/-- The decode scan loop: while count < len(data), struct.unpack the
(object_id, object_length) pair from data[count:count+2] (struct.error, i.e.
none, when that slice holds fewer than two bytes), advance count by
object_length + 2 and store the payload slice
data[count - object_length : count], which Python clamps to the end of the
buffer. -/
def scanObjects (data : List Nat) (count : Nat)
    (info : List (Int × List Nat)) : Option (List (Int × List Nat)) :=
  if h : count < data.length then
    if count + 1 < data.length then
      let object_length := data.getD (count + 1) 0
      scanObjects data (count + object_length + 2)
        (dictSet info ((data.getD count 0 : Nat) : Int)
          ((data.drop (count + 2)).take object_length))
    else none
  else some info
termination_by data.length - count
decreasing_by omega

/-- ReadDeviceInformationResponse.decode: struct.unpack of the six header
bytes from data[0:6] (struct.error, i.e. none, when fewer than six bytes are
present), then the scan loop over the remainder starting at offset 6. -/
def ReadDeviceInformationResponse.decode (data : List Nat) :
    Option ReadDeviceInformationResponse :=
  match data with
  | d0 :: d1 :: d2 :: d3 :: d4 :: d5 :: _ => do
    let info ← scanObjects data 6 []
    return { sub_function_code := (d0 : Int), read_code := (d1 : Int),
             conformity := (d2 : Int), more_follows := (d3 : Int),
             next_object_id := (d4 : Int), number_of_objects := (d5 : Int),
             information := info }
  | _ => none

/-- The estimator scan loop of calculate_rtu_frame_size: repeat count times,
returning size + 2 as soon as fewer than size + 2 bytes are available,
otherwise reading the object length byte at index size + 1 and advancing
size by object_length + 2; after the last object return size + 2. -/
def scanSize (data : List Nat) (size : Nat) : Nat → Nat
  | 0 => size + 2
  | count + 1 =>
    if size + 2 ≤ data.length then
      scanSize data (size + data.getD (size + 1) 0 + 2) count
    else size + 2

/-- ReadDeviceInformationResponse.calculate_rtu_frame_size: size starts at 8;
with at most 7 bytes available the answer is size + 2 = 10; otherwise the
object count is read from data[7] and the scan loop runs. -/
def calculate_rtu_frame_size (data : List Nat) : Nat :=
  if data.length ≤ 7 then 8 + 2
  else scanSize data 8 (data.getD 7 0)

/-- The on-wire byte serialization of a list of (object id, payload) entries
whose ids and length bytes are already byte values: id, length, payload for
each entry. -/
def objectBytes : List (Nat × List Nat) → List Nat
  | [] => []
  | o :: rest => o.1 :: o.2.length :: (o.2 ++ objectBytes rest)

/-- The number of wire bytes the object section of a frame occupies. -/
def objectsWireSize (objs : List (Nat × List Nat)) : Nat :=
  (objs.map (fun o => 2 + o.2.length)).sum

/-- The byte serialization of an information mapping with Int keys, as
emitted by a successful encode. -/
def bodyBytesI : List (Int × List Nat) → List Nat
  | [] => []
  | o :: rest => o.1.toNat :: o.2.length :: (o.2 ++ bodyBytesI rest)

/-! Helper lemmas. -/

theorem packByte_of {v : Int} (h0 : 0 ≤ v) (h1 : v ≤ 255) :
    packByte v = some v.toNat := by
  simp [packByte, h0, h1]

theorem scanSize_ge (data : List Nat) (count : Nat) :
    ∀ size, size + 2 ≤ scanSize data size count := by
  induction count with
  | zero => intro size; simp [scanSize]
  | succ n ih =>
    intro size
    rw [scanSize]
    split
    · exact le_trans (by omega) (ih _)
    · exact le_refl _

theorem calc_ge_ten (data : List Nat) : 10 ≤ calculate_rtu_frame_size data := by
  unfold calculate_rtu_frame_size
  split
  · norm_num
  · exact scanSize_ge data (data.getD 7 0) 8

/-! Claim theorems. -/

/-- C6: the frame-size estimator is total on every byte buffer (the Lean
function is a total computable definition, and its result is always at least
the provisional estimate 10), and on every buffer of fewer than 8 bytes it
returns exactly 10. -/
theorem claim_C6 (data : List Nat) :
    10 ≤ calculate_rtu_frame_size data ∧
    (data.length < 8 → calculate_rtu_frame_size data = 10) := by
  refine ⟨calc_ge_ten data, fun h => ?_⟩
  unfold calculate_rtu_frame_size
  rw [if_pos (by omega)]

/-- Witness for C6 at a concrete 3-byte buffer. -/
theorem claim_C6_witness : calculate_rtu_frame_size [0, 1, 2] = 10 :=
  (claim_C6 [0, 1, 2]).2 (by norm_num)

/-- C8: request decode returns the malformed-frame failure (none, the model
of struct.error) on every buffer of fewer than 3 bytes, and response decode
does so on every buffer of fewer than 6 bytes. -/
theorem claim_C8 (d1 d2 : List Nat) (h1 : d1.length < 3) (h2 : d2.length < 6) :
    ReadDeviceInformationRequest.decode d1 = none ∧
    ReadDeviceInformationResponse.decode d2 = none := by
  constructor
  · rcases d1 with _ | ⟨a, _ | ⟨b, _ | ⟨c, t⟩⟩⟩
    · rfl
    · rfl
    · rfl
    · simp only [List.length_cons] at h1; omega
  · rcases d2 with _ | ⟨a, _ | ⟨b, _ | ⟨c, _ | ⟨d, _ | ⟨e, _ | ⟨f, t⟩⟩⟩⟩⟩⟩
    · rfl
    · rfl
    · rfl
    · rfl
    · rfl
    · rfl
    · simp only [List.length_cons] at h2; omega

/-- Witness for C8 at a 2-byte request buffer and a 5-byte response buffer. -/
theorem claim_C8_witness :
    ReadDeviceInformationRequest.decode [0, 0] = none ∧
    ReadDeviceInformationResponse.decode [0, 0, 0, 0, 0] = none :=
  claim_C8 [0, 0] [0, 0, 0, 0, 0] (by norm_num) (by norm_num)

/-- C9: every response built by the constructor, and in particular the one
wrapped by a successful execute, has conformity 0x83, more_follows 0
(MoreData.Nothing) and next_object_id 0, whatever the read_code and
information arguments were. -/
theorem claim_C9 (rc : Option Int) (info : Option (List (Int × List Nat)))
    (q : ReadDeviceInformationRequest)
    (provider : Int → Int → List (Int × List Nat))
    (r : ReadDeviceInformationResponse)
    (h : q.execute provider = .response r) :
    ((ReadDeviceInformationResponse.init rc info).conformity = 0x83 ∧
     (ReadDeviceInformationResponse.init rc info).more_follows = 0 ∧
     (ReadDeviceInformationResponse.init rc info).next_object_id = 0) ∧
    (r.conformity = 0x83 ∧ r.more_follows = 0 ∧ r.next_object_id = 0) := by
  refine ⟨⟨rfl, rfl, rfl⟩, ?_⟩
  unfold ReadDeviceInformationRequest.execute at h
  split at h
  · exact absurd h (by simp)
  · split at h
    · exact absurd h (by simp)
    · injection h with h'
      subst h'
      exact ⟨rfl, rfl, rfl⟩

/-- Witness for C9 at a concrete valid request and constant provider. -/
theorem claim_C9_witness :
    ((ReadDeviceInformationResponse.init (some 1)
        (some [((0 : Int), [65])])).conformity = 0x83 ∧
     (ReadDeviceInformationResponse.init (some 1)
        (some [((0 : Int), [65])])).more_follows = 0 ∧
     (ReadDeviceInformationResponse.init (some 1)
        (some [((0 : Int), [65])])).next_object_id = 0) ∧
    ((ReadDeviceInformationResponse.init (some 1)
        (some [((0 : Int), [65])])).conformity = 0x83 ∧
     (ReadDeviceInformationResponse.init (some 1)
        (some [((0 : Int), [65])])).more_follows = 0 ∧
     (ReadDeviceInformationResponse.init (some 1)
        (some [((0 : Int), [65])])).next_object_id = 0) :=
  claim_C9 (some 1) (some [((0 : Int), [65])])
    ⟨0x0e, 1, 0⟩ (fun _ _ => [((0 : Int), [65])])
    (ReadDeviceInformationResponse.init (some 1) (some [((0 : Int), [65])]))
    rfl

/-- C10: in both constructors the Python expression
read_code or DeviceInformation.Basic maps the falsy arguments None and 0 to
DeviceInformation.Basic, so a directly constructed record whose read_code is
0 always has read_code equal to DeviceInformation.Basic. -/
theorem claim_C10 (oid : Int) (info : Option (List (Int × List Nat)))
    (rc : Option Int) :
    (ReadDeviceInformationRequest.init none oid).read_code =
      DeviceInformation.Basic ∧
    (ReadDeviceInformationRequest.init (some 0) oid).read_code =
      DeviceInformation.Basic ∧
    (ReadDeviceInformationResponse.init none info).read_code =
      DeviceInformation.Basic ∧
    (ReadDeviceInformationResponse.init (some 0) info).read_code =
      DeviceInformation.Basic ∧
    ((ReadDeviceInformationRequest.init rc oid).read_code = 0 →
      (ReadDeviceInformationRequest.init rc oid).read_code =
        DeviceInformation.Basic) ∧
    ((ReadDeviceInformationResponse.init rc info).read_code = 0 →
      (ReadDeviceInformationResponse.init rc info).read_code =
        DeviceInformation.Basic) := by
  refine ⟨rfl, by simp [ReadDeviceInformationRequest.init],
    rfl, by simp [ReadDeviceInformationResponse.init],
    fun h => h, fun h => h⟩

/-- Witness for C10: the coercion observed on a concrete constructed
request. -/
theorem claim_C10_witness :
    (ReadDeviceInformationRequest.init (some 0) 7).read_code =
      DeviceInformation.Basic :=
  (claim_C10 7 none (some 0)).2.2.2.2.1 rfl

/-- C3: execute reports IllegalValue exactly when object_id is outside
0x00..0xff or read_code is outside 0x00..0x04; an invalid object_id is
reported no matter what read_code holds (the object_id check runs first);
the boundary read_code 0x04 with object_id 0xff yields a response built
from the provider mapping, and read_code 0x05 yields IllegalValue. -/
theorem claim_C3 (q : ReadDeviceInformationRequest)
    (provider : Int → Int → List (Int × List Nat)) :
    (q.execute provider = .exceptionResponse .IllegalValue ↔
      (¬ (0 ≤ q.object_id ∧ q.object_id ≤ 255) ∨
       ¬ (0 ≤ q.read_code ∧ q.read_code ≤ 4))) ∧
    (¬ (0 ≤ q.object_id ∧ q.object_id ≤ 255) →
      q.execute provider = .exceptionResponse .IllegalValue) ∧
    (q.read_code = 4 → q.object_id = 255 →
      q.execute provider = .response (ReadDeviceInformationResponse.init
        (some q.read_code) (some (provider q.read_code q.object_id)))) ∧
    (q.read_code = 5 → q.execute provider = .exceptionResponse .IllegalValue) := by
  unfold ReadDeviceInformationRequest.execute
  by_cases h1 : 0 ≤ q.object_id ∧ q.object_id ≤ 255
  · by_cases h2 : 0 ≤ q.read_code ∧ q.read_code ≤ 4
    · rw [if_neg (not_not_intro h1), if_neg (not_not_intro h2)]
      refine ⟨?_, ?_, ?_, ?_⟩
      · constructor
        · intro hh; exact absurd hh (by simp)
        · intro hh
          rcases hh with hh | hh
          · exact absurd h1 hh
          · exact absurd h2 hh
      · intro hno; exact absurd h1 hno
      · intro _ _; rfl
      · intro h5; rw [h5] at h2; omega
    · rw [if_neg (not_not_intro h1), if_pos h2]
      refine ⟨iff_of_true rfl (Or.inr h2), fun hno => absurd h1 hno, ?_, fun _ => rfl⟩
      intro h4 _
      exfalso
      exact h2 ⟨by rw [h4]; norm_num, by rw [h4]⟩
  · rw [if_pos h1]
    refine ⟨iff_of_true rfl (Or.inl h1), fun _ => rfl, ?_, fun _ => rfl⟩
    intro _ h255
    exfalso
    exact h1 ⟨by rw [h255]; norm_num, by rw [h255]⟩

theorem objectBytes_length (objs : List (Nat × List Nat)) :
    (objectBytes objs).length = objectsWireSize objs := by
  induction objs with
  | nil => simp [objectBytes, objectsWireSize]
  | cons o rest ih =>
    simp [objectBytes, objectsWireSize] at ih ⊢
    omega

theorem getD_take_eq (data : List Nat) (i k : Nat) (h : k < i) :
    (data.take i).getD k 0 = data.getD k 0 := by
  rw [List.getD_eq_getElem?_getD, List.getD_eq_getElem?_getD,
    List.getElem?_take, if_pos h]

theorem scanSize_take_le (data : List Nat) (count : Nat) :
    ∀ i size, scanSize (data.take i) size count ≤ scanSize data size count := by
  induction count with
  | zero => intro i size; simp [scanSize]
  | succ n ih =>
    intro i size
    by_cases h1 : size + 2 ≤ (data.take i).length
    · have h2 : size + 2 ≤ data.length := by
        have := List.length_take i data
        omega
      have hlt : size + 1 < i := by
        have := List.length_take i data
        omega
      rw [scanSize, scanSize, if_pos h1, if_pos h2,
        getD_take_eq data i (size + 1) hlt]
      exact ih i _
    · have hL : scanSize (data.take i) size (n + 1) = size + 2 := by
        rw [scanSize, if_neg h1]
      rw [hL]
      exact scanSize_ge data (n + 1) size

theorem calc_take_le (data : List Nat) (i : Nat) :
    calculate_rtu_frame_size (data.take i) ≤ calculate_rtu_frame_size data := by
  by_cases h : (data.take i).length ≤ 7
  · have h10 : calculate_rtu_frame_size (data.take i) = 10 := by
      unfold calculate_rtu_frame_size
      rw [if_pos h]
    rw [h10]
    exact calc_ge_ten data
  · have hd : ¬ data.length ≤ 7 := by
      have := List.length_take i data
      omega
    have h7 : (7 : Nat) < i := by
      have := List.length_take i data
      omega
    unfold calculate_rtu_frame_size
    rw [if_neg h, if_neg hd, getD_take_eq data i 7 h7]
    exact scanSize_take_le data (data.getD 7 0) i 8

theorem scanSize_frame (objs : List (Nat × List Nat)) :
    ∀ (pre suf : List Nat), suf.length = 2 →
    scanSize (pre ++ objectBytes objs ++ suf) pre.length objs.length =
      pre.length + objectsWireSize objs + 2 := by
  induction objs with
  | nil =>
    intro pre suf hsuf
    simp [objectBytes, objectsWireSize, scanSize]
  | cons o rest ih =>
    intro pre suf hsuf
    have hdata : pre ++ objectBytes (o :: rest) ++ suf =
        (pre ++ o.1 :: o.2.length :: o.2) ++ objectBytes rest ++ suf := by
      simp [objectBytes, List.append_assoc]
    have hlen2 : (pre ++ o.1 :: o.2.length :: o.2).length =
        pre.length + o.2.length + 2 := by
      simp only [List.length_append, List.length_cons]
      omega
    have hassoc : (pre ++ o.1 :: o.2.length :: o.2) ++ objectBytes rest ++ suf =
        pre ++ (o.1 :: o.2.length :: (o.2 ++ (objectBytes rest ++ suf))) := by
      simp [List.append_assoc]
    have hguard : pre.length + 2 ≤
        ((pre ++ o.1 :: o.2.length :: o.2) ++ objectBytes rest ++ suf).length := by
      simp only [List.length_append, hlen2]
      omega
    have hget : ((pre ++ o.1 :: o.2.length :: o.2) ++ objectBytes rest ++
        suf).getD (pre.length + 1) 0 = o.2.length := by
      rw [hassoc, List.getD_append_right _ _ _ _ (by omega)]
      have hone : pre.length + 1 - pre.length = 1 := by omega
      rw [hone]
      rfl
    have hcount : (o :: rest).length = rest.length + 1 := List.length_cons o rest
    rw [hdata, hcount, scanSize, if_pos hguard, hget]
    have hsz : pre.length + o.2.length + 2 =
        (pre ++ o.1 :: o.2.length :: o.2).length := by omega
    rw [hsz, ih (pre ++ o.1 :: o.2.length :: o.2) suf hsuf, hlen2]
    simp only [objectsWireSize, List.map_cons, List.sum_cons]
    omega

/-- C5: for a complete frame (8-byte transport header whose last byte is the
object count, the serialized objects, then a 2-byte CRC trailer) the
estimates over growing prefixes are non-decreasing, and the estimate on the
full buffer equals 8 plus the wire size of the objects plus 2. -/
theorem claim_C5 (hdr : List Nat) (objs : List (Nat × List Nat))
    (crc b : List Nat)
    (hb : b = hdr ++ objectBytes objs ++ crc)
    (hh : hdr.length = 8)
    (hc : hdr.getD 7 0 = objs.length)
    (hcrc : crc.length = 2)
    (_hobj : ∀ o ∈ objs, o.1 ≤ 255 ∧ o.2.length ≤ 255)
    (_hn : objs.length ≤ 255) :
    (∀ i j, i ≤ j →
      calculate_rtu_frame_size (b.take i) ≤
        calculate_rtu_frame_size (b.take j)) ∧
    calculate_rtu_frame_size b = 8 + objectsWireSize objs + 2 := by
  constructor
  · intro i j hij
    have htake : b.take i = (b.take j).take i := by
      rw [List.take_take, Nat.min_eq_left hij]
    rw [htake]
    exact calc_take_le (b.take j) i
  · have hblen : b.length = 8 + objectsWireSize objs + 2 := by
      rw [hb]
      simp only [List.length_append, objectBytes_length, hh, hcrc]
    have hget7 : b.getD 7 0 = objs.length := by
      have hl1 : 7 < (hdr ++ objectBytes objs).length := by
        simp only [List.length_append]
        omega
      rw [hb, List.getD_append _ _ _ _ hl1, List.getD_append _ _ _ _ (by omega),
        hc]
    unfold calculate_rtu_frame_size
    rw [if_neg (by omega), hget7, hb]
    have := scanSize_frame objs hdr crc hcrc
    rw [hh] at this
    exact this

/-- Witness for C5: a concrete one-object frame, with one pair of prefix
estimates compared and the exact total recovered. -/
theorem claim_C5_witness :
    calculate_rtu_frame_size
        (([1, 43, 14, 1, 131, 0, 0, 1] ++ [0, 3, 65, 66, 67] ++ [7, 7]).take 3) ≤
      calculate_rtu_frame_size
        (([1, 43, 14, 1, 131, 0, 0, 1] ++ [0, 3, 65, 66, 67] ++ [7, 7]).take 9) ∧
    calculate_rtu_frame_size
        ([1, 43, 14, 1, 131, 0, 0, 1] ++ [0, 3, 65, 66, 67] ++ [7, 7]) =
      8 + objectsWireSize [((0 : Nat), [65, 66, 67])] + 2 := by
  have h := claim_C5 [1, 43, 14, 1, 131, 0, 0, 1] [((0 : Nat), [65, 66, 67])]
    [7, 7] ([1, 43, 14, 1, 131, 0, 0, 1] ++ [0, 3, 65, 66, 67] ++ [7, 7])
    (by rfl) (by rfl) (by rfl) (by rfl)
    (by intro o ho; simp at ho; subst ho; exact ⟨by norm_num, by norm_num⟩)
    (by norm_num)
  exact ⟨h.1 3 9 (by norm_num), h.2⟩

/-- Witness for C3: a request with read_code 0x05 is rejected with
IllegalValue. -/
theorem claim_C3_witness :
    ReadDeviceInformationRequest.execute ⟨0x0e, 5, 0⟩
      (fun _ _ => [((0 : Int), [65])]) =
      .exceptionResponse .IllegalValue :=
  (claim_C3 ⟨0x0e, 5, 0⟩ (fun _ _ => [((0 : Int), [65])])).2.2.2 rfl

theorem packByte_eq_some {v : Int} {b : Nat} (h : packByte v = some b) :
    b = v.toNat ∧ 0 ≤ v ∧ v ≤ 255 := by
  by_cases hc : 0 ≤ v ∧ v ≤ 255
  · rw [packByte, if_pos hc] at h
    exact ⟨(Option.some_inj.mp h).symm, hc.1, hc.2⟩
  · rw [packByte, if_neg hc] at h
    cases h

theorem encodeObjects_none {objs : List (Int × List Nat)}
    (h : ∃ o ∈ objs, 255 < o.2.length) : encodeObjects objs = none := by
  induction objs with
  | nil => simp at h
  | cons o rest ih =>
    rcases h with ⟨w, hw, hlen⟩
    rcases List.mem_cons.mp hw with rfl | hw2
    · have hfail : packByte ((w.2.length : Nat) : Int) = none := by
        rw [packByte, if_neg]
        intro hc
        have := hc.2
        omega
      cases hb0 : packByte w.1 with
      | none => simp [encodeObjects, hb0]
      | some b0 => simp [encodeObjects, hb0, hfail]
    · have hrest := ih ⟨w, hw2, hlen⟩
      cases hb0 : packByte o.1 with
      | none => simp [encodeObjects, hb0]
      | some b0 =>
        cases hb1 : packByte ((o.2.length : Nat) : Int) with
        | none => simp [encodeObjects, hb0, hb1]
        | some b1 => simp [encodeObjects, hb0, hb1, hrest]

/-- C7: response encode fails (none, the model of the raised struct.error,
the PayloadTooLarge condition of the spec) and emits no frame whenever some
entry of the information mapping has a payload longer than 255 bytes. -/
theorem claim_C7 (r : ReadDeviceInformationResponse)
    (h : ∃ o ∈ r.information, 255 < o.2.length) : r.encode = none := by
  have hbody := encodeObjects_none h
  unfold ReadDeviceInformationResponse.encode
  cases packByte r.sub_function_code <;>
    cases packByte r.read_code <;>
      cases packByte r.conformity <;>
        cases packByte r.more_follows <;>
          cases packByte r.next_object_id <;>
            cases packByte r.number_of_objects <;>
              simp [hbody]

/-- Witness for C7: a response holding one 256-byte payload encodes to
none. -/
theorem claim_C7_witness :
    ReadDeviceInformationResponse.encode
      ⟨0x0e, 1, 0x83, 0, 0, 1, [((1 : Int), List.replicate 256 65)]⟩ = none :=
  claim_C7 ⟨0x0e, 1, 0x83, 0, 0, 1, [((1 : Int), List.replicate 256 65)]⟩
    ⟨((1 : Int), List.replicate 256 65), List.mem_singleton.mpr rfl,
      by rw [List.length_replicate]; norm_num⟩

/-- Counterexample to C1 as stated: a response whose information mapping has
3 entries but whose number_of_objects field holds 5 encodes to a frame whose
sixth header byte is 5 (the stored field), not the recomputed 3. -/
theorem claim_C1_counterexample :
    (ReadDeviceInformationResponse.information
        ⟨0x0e, 1, 0x83, 0, 0, 5,
          [((1 : Int), [65]), ((2 : Int), [66]), ((3 : Int), [67])]⟩).length = 3 ∧
    ReadDeviceInformationResponse.encode
        ⟨0x0e, 1, 0x83, 0, 0, 5,
          [((1 : Int), [65]), ((2 : Int), [66]), ((3 : Int), [67])]⟩ =
      some [0x0e, 1, 0x83, 0, 0, 5, 1, 1, 65, 2, 1, 66, 3, 1, 67] ∧
    (5 : Nat) ≠ 3 := by
  refine ⟨rfl, ?_, by decide⟩
  rfl

/-- C1 amended: encode emits the stored number_of_objects field as the sixth
header byte, not a value recomputed from the mapping; the two agree for
freshly constructed responses only because the constructor itself sets the
field to the mapping size. -/
theorem claim_C1 (r : ReadDeviceInformationResponse) (bs : List Nat)
    (rc : Option Int) (info : Option (List (Int × List Nat)))
    (h : r.encode = some bs) :
    bs.getD 5 0 = r.number_of_objects.toNat ∧
    (ReadDeviceInformationResponse.init rc info).number_of_objects =
      (((ReadDeviceInformationResponse.init rc info).information.length : Nat) :
        Int) := by
  refine ⟨?_, rfl⟩
  unfold ReadDeviceInformationResponse.encode at h
  simp only [Option.bind_eq_bind, Option.bind_eq_some] at h
  obtain ⟨b0, h0, b1, h1, b2, h2, b3, h3, b4, h4, b5, h5, body, hbody, hbs⟩ := h
  have hb5 := (packByte_eq_some h5).1
  have : ([b0, b1, b2, b3, b4, b5] ++ body).getD 5 0 = b5 := rfl
  rw [← (Option.some_inj.mp hbs), this, hb5]

/-- Witness for C1 amended, at a concrete encoded response. -/
theorem claim_C1_witness :
    ([0x0e, 1, 0x83, 0, 0, 1, 2, 2, 65, 66] : List Nat).getD 5 0 =
      (ReadDeviceInformationResponse.number_of_objects
        ⟨0x0e, 1, 0x83, 0, 0, 1, [((2 : Int), [65, 66])]⟩).toNat ∧
    (ReadDeviceInformationResponse.init (some 1)
        (some [((2 : Int), [65, 66])])).number_of_objects =
      (((ReadDeviceInformationResponse.init (some 1)
          (some [((2 : Int), [65, 66])])).information.length : Nat) : Int) :=
  claim_C1 ⟨0x0e, 1, 0x83, 0, 0, 1, [((2 : Int), [65, 66])]⟩
    [0x0e, 1, 0x83, 0, 0, 1, 2, 2, 65, 66]
    (some 1) (some [((2 : Int), [65, 66])]) rfl

/-- Counterexample to C2 as stated: a buffer whose single trailing object
declares length 5 but supplies only 2 payload bytes decodes successfully,
with the payload silently clamped to the available bytes, instead of
failing with MalformedFrame. -/
theorem claim_C2_counterexample :
    ReadDeviceInformationResponse.decode [0x0e, 1, 0x83, 0, 0, 1, 9, 5, 65, 66] =
      some ⟨0x0e, 1, 0x83, 0, 0, 1, [((9 : Int), [65, 66])]⟩ := by
  have hscan : scanObjects [0x0e, 1, 0x83, 0, 0, 1, 9, 5, 65, 66] 6 [] =
      some [((9 : Int), [65, 66])] := by
    rw [scanObjects, dif_pos (by norm_num), if_pos (by norm_num)]
    rw [scanObjects]
    norm_num [dictSet]
  simp only [ReadDeviceInformationResponse.decode, hscan, Option.some_bind]
  norm_num

/-- C2 amended: decode does not detect a truncated trailing object whose
(object_id, object_length) pair is readable: it succeeds with the payload
clamped to the end of the buffer, exactly as the Python slice clamps; it
fails (none) only when a single byte is left where a pair was expected. -/
theorem claim_C2 (d0 d1 d2 d3 d4 d5 oid olen : Nat) (payload : List Nat)
    (hshort : payload.length < olen) :
    ReadDeviceInformationResponse.decode
        (d0 :: d1 :: d2 :: d3 :: d4 :: d5 :: oid :: olen :: payload) =
      some ⟨(d0 : Int), (d1 : Int), (d2 : Int), (d3 : Int), (d4 : Int),
        (d5 : Int), [(((oid : Nat) : Int), payload)]⟩ ∧
    ReadDeviceInformationResponse.decode [d0, d1, d2, d3, d4, d5, oid] =
      none := by
  constructor
  · have h6 : 6 < (d0 :: d1 :: d2 :: d3 :: d4 :: d5 :: oid :: olen ::
        payload).length := by
      simp only [List.length_cons, List.length_nil]
      omega
    have h7 : 6 + 1 < (d0 :: d1 :: d2 :: d3 :: d4 :: d5 :: oid :: olen ::
        payload).length := by
      simp only [List.length_cons, List.length_nil]
      omega
    have hgd1 : (d0 :: d1 :: d2 :: d3 :: d4 :: d5 :: oid :: olen ::
        payload).getD (6 + 1) 0 = olen := rfl
    have hgd0 : (d0 :: d1 :: d2 :: d3 :: d4 :: d5 :: oid :: olen ::
        payload).getD 6 0 = oid := rfl
    have hdrop : (d0 :: d1 :: d2 :: d3 :: d4 :: d5 :: oid :: olen ::
        payload).drop (6 + 2) = payload := rfl
    have hstop : scanObjects
        (d0 :: d1 :: d2 :: d3 :: d4 :: d5 :: oid :: olen :: payload)
        (6 + olen + 2) [(((oid : Nat) : Int), payload)] =
        some [(((oid : Nat) : Int), payload)] := by
      have hcond : ¬ (6 + olen + 2 < (d0 :: d1 :: d2 :: d3 :: d4 :: d5 ::
          oid :: olen :: payload).length) := by
        simp only [List.length_cons, List.length_nil]
        omega
      rw [scanObjects, dif_neg hcond]
    have hscan : scanObjects
        (d0 :: d1 :: d2 :: d3 :: d4 :: d5 :: oid :: olen :: payload) 6 [] =
        some [(((oid : Nat) : Int), payload)] := by
      rw [scanObjects, dif_pos h6, if_pos h7]
      dsimp only
      rw [hgd1, hgd0, hdrop, List.take_of_length_le (le_of_lt hshort)]
      have hset : dictSet [] ((oid : Nat) : Int) payload =
          [(((oid : Nat) : Int), payload)] := rfl
      rw [hset, hstop]
    simp only [ReadDeviceInformationResponse.decode, hscan]
    rfl
  · have hscan2 : scanObjects [d0, d1, d2, d3, d4, d5, oid] 6 [] = none := by
      rw [scanObjects, dif_pos (by simp only [List.length_cons, List.length_nil]; omega),
        if_neg (by simp only [List.length_cons, List.length_nil]; omega)]
    simp only [ReadDeviceInformationResponse.decode, hscan2]
    rfl

/-- Witness for C2 amended at a concrete truncated buffer. -/
theorem claim_C2_witness :
    ReadDeviceInformationResponse.decode [1, 2, 3, 4, 5, 6, 7, 9, 65, 66] =
      some ⟨(1 : Int), 2, 3, 4, 5, 6, [((7 : Int), [65, 66])]⟩ ∧
    ReadDeviceInformationResponse.decode [1, 2, 3, 4, 5, 6, 7] = none := by
  have h := claim_C2 1 2 3 4 5 6 7 9 [65, 66] (by norm_num)
  exact ⟨h.1.trans (by norm_num), h.2⟩

theorem dictSet_not_mem {m : List (Int × List Nat)} {k : Int} {v : List Nat}
    (h : ∀ a ∈ m, a.1 ≠ k) : dictSet m k v = m ++ [(k, v)] := by
  unfold dictSet
  rw [if_neg]
  intro hc
  simp only [List.any_eq_true, beq_iff_eq] at hc
  obtain ⟨a, ha, hk⟩ := hc
  exact h a ha hk

theorem encodeObjects_valid (objs : List (Int × List Nat))
    (h : ∀ o ∈ objs, 0 ≤ o.1 ∧ o.1 ≤ 255 ∧ o.2.length ≤ 255) :
    encodeObjects objs = some (bodyBytesI objs) := by
  induction objs with
  | nil => rfl
  | cons o rest ih =>
    obtain ⟨h1, h2, h3⟩ := h o (List.mem_cons_self o rest)
    have hl0 : (0 : Int) ≤ ((o.2.length : Nat) : Int) := Int.natCast_nonneg _
    have hl255 : ((o.2.length : Nat) : Int) ≤ 255 := by exact_mod_cast h3
    have hrest := ih (fun a ha => h a (List.mem_cons_of_mem o ha))
    simp only [encodeObjects, packByte_of h1 h2, packByte_of hl0 hl255, hrest,
      Option.some_bind, Int.toNat_natCast, bodyBytesI]
    rfl

theorem scanObjects_append (objs : List (Int × List Nat)) :
    ∀ (pre : List Nat) (acc : List (Int × List Nat)),
    (∀ o ∈ objs, 0 ≤ o.1) →
    (∀ o ∈ objs, ∀ a ∈ acc, a.1 ≠ o.1) →
    objs.Pairwise (fun a b => a.1 ≠ b.1) →
    scanObjects (pre ++ bodyBytesI objs) pre.length acc = some (acc ++ objs) := by
  induction objs with
  | nil =>
    intro pre acc _ _ _
    have hnil : bodyBytesI [] = ([] : List Nat) := rfl
    rw [hnil, List.append_nil, List.append_nil, scanObjects,
      dif_neg (lt_irrefl pre.length)]
  | cons o rest ih =>
    intro pre acc hpos hdisj hpw
    have hbody : bodyBytesI (o :: rest) =
        o.1.toNat :: o.2.length :: (o.2 ++ bodyBytesI rest) := rfl
    have hlen : (pre ++ bodyBytesI (o :: rest)).length =
        pre.length + 2 + o.2.length + (bodyBytesI rest).length := by
      rw [hbody]
      simp only [List.length_append, List.length_cons]
      omega
    have h1 : pre.length < (pre ++ bodyBytesI (o :: rest)).length := by omega
    have h2 : pre.length + 1 < (pre ++ bodyBytesI (o :: rest)).length := by
      omega
    have hget0 : (pre ++ bodyBytesI (o :: rest)).getD pre.length 0 =
        o.1.toNat := by
      rw [List.getD_append_right _ _ _ _ (le_refl pre.length), Nat.sub_self,
        hbody]
      rfl
    have hget1 : (pre ++ bodyBytesI (o :: rest)).getD (pre.length + 1) 0 =
        o.2.length := by
      rw [List.getD_append_right _ _ _ _ (by omega)]
      have hone : pre.length + 1 - pre.length = 1 := by omega
      rw [hone, hbody]
      rfl
    have hdrop : (pre ++ bodyBytesI (o :: rest)).drop (pre.length + 2) =
        o.2 ++ bodyBytesI rest := by
      have hsplit : pre ++ bodyBytesI (o :: rest) =
          (pre ++ [o.1.toNat, o.2.length]) ++ (o.2 ++ bodyBytesI rest) := by
        rw [hbody]
        simp [List.append_assoc]
      have hl2 : (pre ++ [o.1.toNat, o.2.length]).length = pre.length + 2 := by
        simp [List.length_append]
      rw [hsplit, ← hl2, List.drop_left]
    have hcast : ((o.1.toNat : Nat) : Int) = o.1 :=
      Int.toNat_of_nonneg (hpos o (List.mem_cons_self o rest))
    have hnomem : ∀ a ∈ acc, a.1 ≠ o.1 :=
      fun a ha => hdisj o (List.mem_cons_self o rest) a ha
    have hd2 : ∀ w ∈ rest, ∀ a ∈ acc ++ [(o.1, o.2)], a.1 ≠ w.1 := by
      intro w hw a ha
      rcases List.mem_append.mp ha with hin | hsing
      · exact hdisj w (List.mem_cons_of_mem o hw) a hin
      · have he : a = (o.1, o.2) := by simpa using hsing
        rw [he]
        exact (List.pairwise_cons.mp hpw).1 w hw
    have hih := ih (pre ++ o.1.toNat :: o.2.length :: o.2)
      (acc ++ [(o.1, o.2)])
      (fun a ha => hpos a (List.mem_cons_of_mem o ha)) hd2
      (List.pairwise_cons.mp hpw).2
    have hc2 : pre.length + o.2.length + 2 =
        (pre ++ o.1.toNat :: o.2.length :: o.2).length := by
      simp only [List.length_append, List.length_cons]
      omega
    have hsplit2 : pre ++ bodyBytesI (o :: rest) =
        (pre ++ o.1.toNat :: o.2.length :: o.2) ++ bodyBytesI rest := by
      rw [hbody]
      simp [List.append_assoc]
    rw [scanObjects, dif_pos h1, if_pos h2]
    dsimp only
    rw [hget1, hget0, hdrop, List.take_left, hcast, dictSet_not_mem hnomem,
      hc2, hsplit2, hih]
    simp [List.append_assoc]

/-- C4: round-trip for both codecs. For every request whose three fields are
byte values, decoding the encoded bytes restores the record; for every
response whose six scalar fields are byte values and whose information
mapping has byte keys, pairwise distinct keys (it models a Python dict) and
payloads of at most 255 bytes, decoding the encoded bytes restores the
record, header fields, mapping and iteration order included. -/
theorem claim_C4 (q : ReadDeviceInformationRequest)
    (hq1 : 0 ≤ q.sub_function_code ∧ q.sub_function_code ≤ 255)
    (hq2 : 0 ≤ q.read_code ∧ q.read_code ≤ 255)
    (hq3 : 0 ≤ q.object_id ∧ q.object_id ≤ 255)
    (r : ReadDeviceInformationResponse)
    (hr1 : 0 ≤ r.sub_function_code ∧ r.sub_function_code ≤ 255)
    (hr2 : 0 ≤ r.read_code ∧ r.read_code ≤ 255)
    (hr3 : 0 ≤ r.conformity ∧ r.conformity ≤ 255)
    (hr4 : 0 ≤ r.more_follows ∧ r.more_follows ≤ 255)
    (hr5 : 0 ≤ r.next_object_id ∧ r.next_object_id ≤ 255)
    (hr6 : 0 ≤ r.number_of_objects ∧ r.number_of_objects ≤ 255)
    (hinfo : ∀ o ∈ r.information, 0 ≤ o.1 ∧ o.1 ≤ 255 ∧ o.2.length ≤ 255)
    (hkeys : r.information.Pairwise (fun a b => a.1 ≠ b.1)) :
    (ReadDeviceInformationRequest.encode q).bind
        ReadDeviceInformationRequest.decode = some q ∧
    (ReadDeviceInformationResponse.encode r).bind
        ReadDeviceInformationResponse.decode = some r := by
  constructor
  · obtain ⟨s, c, oid⟩ := q
    dsimp only at hq1 hq2 hq3
    have he : ReadDeviceInformationRequest.encode ⟨s, c, oid⟩ =
        some [s.toNat, c.toNat, oid.toNat] := by
      unfold ReadDeviceInformationRequest.encode
      rw [packByte_of hq1.1 hq1.2, packByte_of hq2.1 hq2.2,
        packByte_of hq3.1 hq3.2]
      rfl
    rw [he]
    have hdec : ReadDeviceInformationRequest.decode
        [s.toNat, c.toNat, oid.toNat] =
        some ⟨(s.toNat : Int), (c.toNat : Int), (oid.toNat : Int)⟩ := rfl
    show ReadDeviceInformationRequest.decode [s.toNat, c.toNat, oid.toNat] =
      some ⟨s, c, oid⟩
    rw [hdec, Int.toNat_of_nonneg hq1.1, Int.toNat_of_nonneg hq2.1,
      Int.toNat_of_nonneg hq3.1]
  · obtain ⟨rs, rc2, cf, mf, no2, nb, inf⟩ := r
    dsimp only at hr1 hr2 hr3 hr4 hr5 hr6 hinfo hkeys
    have hbody := encodeObjects_valid inf hinfo
    have henc : ReadDeviceInformationResponse.encode
        ⟨rs, rc2, cf, mf, no2, nb, inf⟩ =
        some ([rs.toNat, rc2.toNat, cf.toNat, mf.toNat, no2.toNat, nb.toNat] ++
          bodyBytesI inf) := by
      unfold ReadDeviceInformationResponse.encode
      rw [packByte_of hr1.1 hr1.2, packByte_of hr2.1 hr2.2,
        packByte_of hr3.1 hr3.2, packByte_of hr4.1 hr4.2,
        packByte_of hr5.1 hr5.2, packByte_of hr6.1 hr6.2, hbody]
      rfl
    rw [henc]
    show ReadDeviceInformationResponse.decode
        ([rs.toNat, rc2.toNat, cf.toNat, mf.toNat, no2.toNat, nb.toNat] ++
          bodyBytesI inf) =
      some ⟨rs, rc2, cf, mf, no2, nb, inf⟩
    have hscan := scanObjects_append inf
      [rs.toNat, rc2.toNat, cf.toNat, mf.toNat, no2.toNat, nb.toNat] []
      (fun o ho => (hinfo o ho).1)
      (fun o _ a ha => absurd ha (List.not_mem_nil a)) hkeys
    have hlen6 : ([rs.toNat, rc2.toNat, cf.toNat, mf.toNat, no2.toNat,
        nb.toNat] : List Nat).length = 6 := rfl
    rw [hlen6, List.nil_append] at hscan
    have happ : [rs.toNat, rc2.toNat, cf.toNat, mf.toNat, no2.toNat,
        nb.toNat] ++ bodyBytesI inf =
        rs.toNat :: rc2.toNat :: cf.toNat :: mf.toNat :: no2.toNat ::
          nb.toNat :: bodyBytesI inf := rfl
    rw [happ] at hscan ⊢
    simp only [ReadDeviceInformationResponse.decode, hscan, Option.some_bind]
    rw [Int.toNat_of_nonneg hr1.1, Int.toNat_of_nonneg hr2.1,
      Int.toNat_of_nonneg hr3.1, Int.toNat_of_nonneg hr4.1,
      Int.toNat_of_nonneg hr5.1, Int.toNat_of_nonneg hr6.1]
    rfl

/-- Witness for C4 at a concrete request and response. -/
theorem claim_C4_witness :
    (ReadDeviceInformationRequest.encode ⟨0x0e, 1, 0⟩).bind
        ReadDeviceInformationRequest.decode = some ⟨0x0e, 1, 0⟩ ∧
    (ReadDeviceInformationResponse.encode
        ⟨0x0e, 1, 0x83, 0, 0, 1, [((2 : Int), [65, 66])]⟩).bind
        ReadDeviceInformationResponse.decode =
      some ⟨0x0e, 1, 0x83, 0, 0, 1, [((2 : Int), [65, 66])]⟩ :=
  claim_C4 ⟨0x0e, 1, 0⟩ (by decide) (by decide) (by decide)
    ⟨0x0e, 1, 0x83, 0, 0, 1, [((2 : Int), [65, 66])]⟩
    (by decide) (by decide) (by decide) (by decide) (by decide) (by decide)
    (by decide) (by decide)

end Pymodbus3
